import Mathlib

/-!
Verification of the Freedify audio delivery pipeline (app/cache.py,
app/audio_service.py, app/main.py) against its specification.

The Python code is shallowly embedded: identifiers, formats and paths are
lists of characters, file contents are lists of naturals, network calls and
the external encoder are oracle parameters, and the stateful parts
(filesystem, mirror affinity) are passed explicitly.
-/

namespace Freedify

/-- Bytes of a file, modelled as a list of naturals. -/
abbrev Bytes := List Nat

/-- Identifiers, formats, header values and path components, modelled as
lists of characters. -/
abbrev Str := List Char

/-! ## Content cache (app/cache.py) -/

/-- Python str.replace for a single-character pattern replaces every
occurrence of that character. -/
def replaceChar (a b : Char) (s : Str) : Str :=
  s.map (fun c => if c = a then b else c)

/-- Embedding of the direct-sanitization branch of get_cache_path:
isrc.replace("/", "_").replace(":", "_") (cache.py line 43). -/
def sanitize (isrc : Str) : Str :=
  replaceChar ':' '_' (replaceChar '/' '_' isrc)

/-- Embedding of isrc.startswith("LINK:") (cache.py line 39). -/
def isLinkPrefixed : Str → Bool
  | a :: b :: c :: d :: e :: _ =>
      a = 'L' && b = 'I' && c = 'N' && d = 'K' && e = ':'
  | _ => false

/-- Embedding of get_cache_path (cache.py lines 29-45), returning the file
name relative to CACHE_DIR.  The call to hashlib.md5(...).hexdigest() is a
library function outside the repository, passed in as the oracle md5hex.
The result models CACHE_DIR / f"{safe_name}.{format}". -/
def get_cache_path (md5hex : Str → Str) (isrc format : Str) : Str :=
  (if 100 < isrc.length || isLinkPrefixed isrc then md5hex isrc
   else sanitize isrc) ++ '.' :: format

/-- Contents of the cache directory: a map from file name to the bytes
stored there, none meaning the file does not exist. -/
def FS := Str → Option Bytes

/-- The empty cache directory. -/
def FS.empty : FS := fun _ => none

/-- Embedding of is_cached (cache.py lines 48-51):
cache_path.exists() and cache_path.stat().st_size > 0.  The size of a file
is the length of its stored bytes. -/
def is_cached (md5hex : Str → Str) (fs : FS) (isrc format : Str) : Bool :=
  match fs (get_cache_path md5hex isrc format) with
  | some d => decide (0 < d.length)
  | none => false

/-- Embedding of get_cached_file (cache.py lines 54-65): when the file
exists its bytes are returned (the touch updates only the access time,
which this byte-level model does not track); otherwise None. -/
def get_cached_file (md5hex : Str → Str) (fs : FS) (isrc format : Str) :
    Option Bytes :=
  match fs (get_cache_path md5hex isrc format) with
  | some d => some d
  | none => none

/-- Embedding of cache_file (cache.py lines 68-78).  diskOk models whether
the OS write raises: on an exception the function logs and returns False
leaving the store unchanged, otherwise it writes the bytes in place and
returns True. -/
def cache_file (md5hex : Str → Str) (diskOk : Bool) (fs : FS) (isrc : Str)
    (data : Bytes) (format : Str) : FS × Bool :=
  if diskOk then
    (fun p => if p = get_cache_path md5hex isrc format then some data
              else fs p, true)
  else (fs, false)

/-- A directory entry as gathered by cleanup_cache (cache.py lines 95-103):
path, byte size and last-access time. -/
structure CEntry where
  path : Str
  size : Nat
  atime : Int
  deriving DecidableEq, Repr

/-- Embedding of the TTL test now - atime > ttl_seconds
(cache.py line 107). -/
def expired (now ttl : Int) (e : CEntry) : Bool :=
  decide (ttl < now - e.atime)

/-- Total size of a list of entries, as summed on cache.py line 117. -/
def totalSize (l : List CEntry) : Nat :=
  (l.map (fun e => e.size)).sum

/-- The sort key of cache.py line 116: ascending last-access time. -/
def atimeLe (a b : CEntry) : Bool :=
  decide (a.atime ≤ b.atime)

/-- Embedding of the while loop of cache.py lines 119-126: while the total
size exceeds the budget, pop the oldest (front) entry.  In this model every
unlink succeeds. -/
def evict (maxBytes : Nat) : List CEntry → List CEntry
  | [] => []
  | e :: rest =>
      if maxBytes < totalSize (e :: rest) then evict maxBytes rest
      else e :: rest

/-- Phase one of cleanup_cache (cache.py lines 106-113): every entry whose
age exceeds the TTL is removed. -/
def youngFiles (now ttl : Int) (files : List CEntry) : List CEntry :=
  files.filter (fun e => !(expired now ttl e))

/-- The surviving entries sorted by last-access time
(cache.py line 116). -/
def sortedYoung (now ttl : Int) (files : List CEntry) : List CEntry :=
  (youngFiles now ttl files).mergeSort atimeLe

/-- Embedding of cleanup_cache (cache.py lines 88-128): remove expired
entries, sort the rest by last-access time, then evict from the oldest end
until the size budget is met. -/
def cleanup_cache (now ttl : Int) (maxBytes : Nat) (files : List CEntry) :
    List CEntry :=
  evict maxBytes (sortedYoung now ttl files)

/-! ## Resolver (app/audio_service.py, fetch_flac) -/

/-- Worker for replaceAll, structurally recursive on a fuel that bounds
the input length: a match consumes the whole pattern (one head character
plus pat.length - 1 dropped from the tail), a mismatch consumes one
character. -/
def replaceAllAux (pat rep : Str) : Nat → Str → Str
  | _, [] => []
  | 0, s => s
  | Nat.succ fuel, c :: rest =>
      if pat.isPrefixOf (c :: rest) ∧ pat ≠ [] then
        rep ++ replaceAllAux pat rep fuel (rest.drop (pat.length - 1))
      else
        c :: replaceAllAux pat rep fuel rest

/-- Python str.replace(pat, rep) for a general pattern: every
non-overlapping occurrence is replaced, scanning left to right. -/
def replaceAll (pat rep s : Str) : Str :=
  replaceAllAux pat rep s.length s

/-- Embedding of isrc.startswith("dz_") (audio_service.py line 661). -/
def isDzPrefixed : Str → Bool
  | a :: b :: c :: _ => a = 'd' && b = 'z' && c = '_'
  | _ => false

/-- Embedding of isrc.startswith("query:") (audio_service.py
line 685). -/
def isQueryPrefixed : Str → Bool
  | a :: b :: c :: d :: e :: f :: _ =>
      a = 'q' && b = 'u' && c = 'e' && d = 'r' && e = 'y' && f = ':'
  | _ => false

/-- Embedding of isrc.startswith("dab_") (audio_service.py line 698). -/
def isDabPrefixed : Str → Bool
  | a :: b :: c :: d :: _ => a = 'd' && b = 'a' && c = 'b' && d = '_'
  | _ => false

/-- The pattern of isrc.replace("query:", "") (audio_service.py
line 686). -/
def queryPat : Str := ['q', 'u', 'e', 'r', 'y', ':']

/-- The literal f"isrc:" prepended on audio_service.py line 709. -/
def isrcPat : Str := ['i', 's', 'r', 'c', ':']

/-- Outcome of one network attempt: a payload, a soft miss (timeout,
non-200, malformed body, all returned as None by the code), or an
exception raised out of the attempted call. -/
inductive Attempt where
  | ok (url : Str)
  | fail
  | exc
  deriving DecidableEq, Repr

/-- The fields of a Deezer track payload that fetch_flac inspects: whether
the JSON carries an "error" key, its "isrc" field, and the
title-plus-artist string built on audio_service.py line 677. -/
structure DzInfo where
  hasError : Bool
  isrcField : Option Str
  suggested : Str
  deriving DecidableEq, Repr

/-- Oracles for every network interaction of one fetch_flac call.
dzFetch is the preprocessing GET api.deezer.com/track/{id}
(none on non-200 or exception); dabSearchFound and dabStream are the Dab
block search and stream-URL calls; tidalSearch and tidalDownload cover
search_tidal_by_isrc and get_tidal_download_url (both swallow their own
errors and return None); dzFetch2, dzByIsrc and dzSearch are the three
ways the Deezer fallback obtains track info; deezerDownload is
get_deezer_download_url. -/
structure FetchEnv where
  dzFetch : Option DzInfo
  dabSearchFound : Bool
  dabStream : Attempt
  tidalSearch : Bool
  tidalDownload : Option Str
  dzFetch2 : Option DzInfo
  dzByIsrc : Option DzInfo
  dzSearch : Option DzInfo
  deezerDownload : Option Str
  deriving DecidableEq, Repr

/-- The id, query and cached Deezer info after the preprocessing of
fetch_flac (audio_service.py lines 658-688). -/
structure PreState where
  isrc : Str
  query : Str
  dzInfo0 : Option DzInfo
  deriving DecidableEq, Repr

/-- Embedding of the dz_ and query: preprocessing of fetch_flac
(audio_service.py lines 658-688): a dz_ id is looked up on the public
Deezer API and, when the payload has no error and carries an ISRC, the id
is replaced by that ISRC and an empty query hint by title plus artist; a
query: id is turned into a pure query search. -/
def preprocess (env : FetchEnv) (isrc query : Str) : PreState :=
  let p1 : PreState :=
    if isDzPrefixed isrc then
      match env.dzFetch with
      | some info =>
          if !info.hasError then
            match info.isrcField with
            | some extracted =>
                { isrc := extracted,
                  query := if query.isEmpty then info.suggested else query,
                  dzInfo0 := some info }
            | none => { isrc := isrc, query := query, dzInfo0 := some info }
          else { isrc := isrc, query := query, dzInfo0 := some info }
      | none => { isrc := isrc, query := query, dzInfo0 := none }
    else { isrc := isrc, query := query, dzInfo0 := none }
  if isQueryPrefixed p1.isrc then
    { isrc := [], query := replaceAll queryPat [] p1.isrc,
      dzInfo0 := p1.dzInfo0 }
  else p1

/-- The dab_query of audio_service.py lines 707-709. -/
def dabQuery (pre : PreState) : Str :=
  if !pre.query.isEmpty then pre.query
  else if !pre.isrc.isEmpty && !(isDzPrefixed pre.isrc) then
    isrcPat ++ pre.isrc
  else []

/-- Whether the Dab block obtains a dab_id (audio_service.py
lines 695-718): either the id is dab_-prefixed, or the non-empty
dab_query search returned a track. -/
def dabHasId (env : FetchEnv) (pre : PreState) : Bool :=
  isDabPrefixed pre.isrc || (!(dabQuery pre).isEmpty && env.dabSearchFound)

/-- What the Dab block (audio_service.py lines 691-767) yields: a stream
URL when an id was found and get_stream_url returned one.  The whole block
sits under one try/except, so an exception (Attempt.exc) is caught and
behaves exactly like a miss. -/
def dabYield (env : FetchEnv) (pre : PreState) : Option Str :=
  if dabHasId env pre then
    match env.dabStream with
    | .ok u => some u
    | .fail => none
    | .exc => none
  else none

/-- What the Tidal block (audio_service.py lines 769-798) yields:
a download URL when the search found a track and get_tidal_download_url
produced a URL.  Both helpers catch their own exceptions and return
None. -/
def tidalYield (env : FetchEnv) : Option Str :=
  if env.tidalSearch then env.tidalDownload else none

/-- The deezer_info resolution of the fallback (audio_service.py
lines 803-829): reuse the preprocessing payload when cached, otherwise
refetch by id for dz_ ids, else look up by ISRC, else search by query. -/
def deezerInfoResolved (env : FetchEnv) (pre : PreState) : Option DzInfo :=
  match pre.dzInfo0 with
  | some i => some i
  | none =>
      if isDzPrefixed pre.isrc then env.dzFetch2
      else if !pre.isrc.isEmpty then env.dzByIsrc
      else if !pre.query.isEmpty then env.dzSearch
      else none

/-- What the Deezer block (audio_service.py lines 800-858) yields: a
download URL when info without an error key was resolved and
get_deezer_download_url produced a URL. -/
def deezerYield (env : FetchEnv) (pre : PreState) : Option Str :=
  match deezerInfoResolved env pre with
  | some info => if !info.hasError then env.deezerDownload else none
  | none => none

/-- The three origin providers tried by fetch_flac, in priority order. -/
inductive Provider where
  | dab
  | tidal
  | deezer
  deriving DecidableEq, Repr

/-- Embedding of fetch_flac (audio_service.py lines 655-861).  The second
component instruments which provider blocks ran, in order.  The Tidal
block is guarded by not isrc.startswith("dz_") (line 770); the Dab and
Deezer blocks always run.  On success the stream URL of the first
successful provider is returned; after the last block fails the function
returns None (line 861). -/
def fetch_flac (env : FetchEnv) (isrc query : Str) :
    Option Str × List Provider :=
  let pre := preprocess env isrc query
  match dabYield env pre with
  | some u => (some u, [.dab])
  | none =>
      if !(isDzPrefixed pre.isrc) then
        match tidalYield env with
        | some u => (some u, [.dab, .tidal])
        | none =>
            match deezerYield env pre with
            | some u => (some u, [.dab, .tidal, .deezer])
            | none => (none, [.dab, .tidal, .deezer])
      else
        match deezerYield env pre with
        | some u => (some u, [.dab, .deezer])
        | none => (none, [.dab, .deezer])

/-- What each provider would yield for this call, independently of the
others. -/
def provYield (env : FetchEnv) (isrc query : Str) : Provider → Option Str
  | .dab => dabYield env (preprocess env isrc query)
  | .tidal => tidalYield env
  | .deezer => deezerYield env (preprocess env isrc query)

/-- The chain of providers applicable to this call, in fixed priority
order; Tidal is skipped for ids that still carry the dz_ marker after
preprocessing. -/
def provChain (env : FetchEnv) (isrc query : Str) : List Provider :=
  if isDzPrefixed (preprocess env isrc query).isrc then
    [.dab, .deezer]
  else [.dab, .tidal, .deezer]

/-- Reference traversal of a provider chain: try each candidate once, in
order, stop at the first success, record the attempts. -/
def tryChain (y : Provider → Option Str) :
    List Provider → Option Str × List Provider
  | [] => (none, [])
  | p :: ps =>
      match y p with
      | some u => (some u, [p])
      | none =>
          let r := tryChain y ps
          (r.1, p :: r.2)

/-- Turning an exception outcome into a plain miss. -/
def softenAttempt : Attempt → Attempt
  | .exc => .fail
  | a => a

/-- The same oracle environment with the Dab exception downgraded to a
miss; the other oracles already return None instead of raising. -/
def softenEnv (env : FetchEnv) : FetchEnv :=
  { env with dabStream := softenAttempt env.dabStream }

/-! ## Mirror selector (app/audio_service.py, get_tidal_download_url) -/

/-- Embedding of the candidate-list construction of get_tidal_download_url
(audio_service.py lines 566-569): copy the current endpoint list and, when
the last working API is set and present, remove it and reinsert it at the
front. -/
def apis_to_try (working : Option Str) (apis : List Str) : List Str :=
  match working with
  | some w => if w ∈ apis then w :: apis.erase w else apis
  | none => apis

/-- Embedding of the attempt loop of audio_service.py lines 572-575
together with the working-API update done inside
get_tidal_download_url_from_api on success (lines 385, 395, 401, 404).
respond abstracts one call to get_tidal_download_url_from_api, which
swallows every failure into None.  Returns the download URL, the endpoint
that succeeded, and the list of endpoints attempted in order. -/
def tryApis (respond : Str → Option Str) :
    List Str → Option Str × Option Str × List Str
  | [] => (none, none, [])
  | a :: rest =>
      match respond a with
      | some u => (some u, some a, [a])
      | none =>
          let r := tryApis respond rest
          (r.1, r.2.1, a :: r.2.2)

/-- Embedding of get_tidal_download_url (audio_service.py lines 559-578):
build the candidate order from the current working API, try each candidate
once, stop at the first URL.  The second component is the working API
after the call (set by the successful attempt, otherwise unchanged), the
third the attempt trace. -/
def get_tidal_download_url (respond : Str → Option Str) (apis : List Str)
    (working : Option Str) : Option Str × Option Str × List Str :=
  let r := tryApis respond (apis_to_try working apis)
  (r.1, match r.2.1 with | some a => some a | none => working, r.2.2)

/-! ## Transcoder (app/audio_service.py) -/

/-- The value bound to flac_data by a successful fetch_flac call: either a
stream URL string or raw audio bytes. -/
inductive AudioData where
  | url (u : Str)
  | flacBytes (b : Bytes)
  deriving DecidableEq, Repr

/-- Embedding of transcode_to_mp3 (audio_service.py lines 863-896).
ffmpeg abstracts a successful pipe run of the external encoder on byte
input (None for a nonzero exit code or a missing binary).  Handing the
function a URL string instead of bytes makes process.communicate raise a
TypeError, which the blanket except of line 894 turns into None. -/
def transcode_to_mp3 (ffmpeg : Bytes → Option Bytes) :
    AudioData → Option Bytes
  | .url _ => none
  | .flacBytes b => ffmpeg b

/-- The FLAC stream marker b"fLaC" (audio_service.py line 1150). -/
def flacMagic : Bytes := [0x66, 0x4C, 0x61, 0x43]

/-- The format key "flac". -/
def flacFmt : Str := ['f', 'l', 'a', 'c']

/-- The format key "flac_24". -/
def flac24Fmt : Str := ['f', 'l', 'a', 'c', '_', '2', '4']

/-- The format key "mp3". -/
def mp3Fmt : Str := ['m', 'p', '3']

/-- Embedding of is_flac_source (audio_service.py line 1150):
len(flac_data) >= 4 and flac_data[:4] == b"fLaC". -/
def is_flac_source (d : Bytes) : Bool :=
  decide (4 ≤ d.length) && decide (d.take 4 = flacMagic)

/-- Embedding of is_flac_target (audio_service.py line 1151):
format in ("flac", "flac_24"). -/
def is_flac_target (format : Str) : Bool :=
  decide (format = flacFmt) || decide (format = flac24Fmt)

/-- The output bit depth of the FLAC profiles of FORMAT_CONFIG
(audio_service.py lines 943-952): "flac" forces 16-bit samples,
"flac_24" preserves 24-bit samples. -/
def profileBitDepth (format : Str) : Option Nat :=
  if format = flacFmt then some 16
  else if format = flac24Fmt then some 24
  else none

/-- Embedding of the transcode-or-bypass stage of get_download_audio
(audio_service.py lines 1145-1159): when the source already carries the
FLAC signature and the target is a FLAC profile the source bytes pass
through untouched, otherwise transcode_to_format runs the external
encoder.  The second component counts encoder process invocations. -/
def transcodeStage (ffmpeg : Bytes → Str → Option Bytes) (flac_data : Bytes)
    (format : Str) : Option Bytes × Nat :=
  if is_flac_source flac_data && is_flac_target format then
    (some flac_data, 0)
  else (ffmpeg flac_data format, 1)

/-- Embedding of the tail of get_download_audio (audio_service.py
lines 1145-1170): transcode or pass through, then on truthy output embed
metadata, tagging bypassed output as "flac" (line 1163). -/
def downloadTranscode (ffmpeg : Bytes → Str → Option Bytes)
    (embed : Bytes → Str → Bytes) (flac_data : Bytes) (format : Str) :
    Option Bytes × Nat :=
  let bypass := is_flac_source flac_data && is_flac_target format
  let st := transcodeStage ffmpeg flac_data format
  match st.1 with
  | some out =>
      if out.isEmpty then (none, st.2)
      else
        let tagFormat := if bypass then flacFmt else format
        (some (embed out tagFormat), st.2)
  | none => (none, st.2)

/-- Embedding of the miss path of get_audio_stream (audio_service.py
lines 910-927): fetch via fetch_flac, hand the result to transcode_to_mp3,
cache truthy output under (isrc, "mp3") and return it.  A successful
fetch_flac yields a stream URL string (its bytes-returning paths were
removed), which is exactly the value bound to flac_data here. -/
def fetchAndTranscode (md5hex : Str → Str) (ffmpeg : Bytes → Option Bytes)
    (diskOk : Bool) (env : FetchEnv) (fs : FS) (isrc query : Str) :
    Option Bytes × FS :=
  match (fetch_flac env isrc query).1 with
  | none => (none, fs)
  | some url =>
      match transcode_to_mp3 ffmpeg (.url url) with
      | some m =>
          if !m.isEmpty then
            (some m, (cache_file md5hex diskOk fs isrc m mp3Fmt).1)
          else (some m, fs)
      | none => (none, fs)

/-- Embedding of get_audio_stream (audio_service.py lines 898-927): serve
truthy cached bytes, otherwise fetch, transcode and cache. -/
def get_audio_stream (md5hex : Str → Str) (ffmpeg : Bytes → Option Bytes)
    (diskOk : Bool) (env : FetchEnv) (fs : FS) (isrc query : Str) :
    Option Bytes × FS :=
  if is_cached md5hex fs isrc mp3Fmt then
    match get_cached_file md5hex fs isrc mp3Fmt with
    | some d =>
        if !d.isEmpty then (some d, fs)
        else fetchAndTranscode md5hex ffmpeg diskOk env fs isrc query
    | none => fetchAndTranscode md5hex ffmpeg diskOk env fs isrc query
  else fetchAndTranscode md5hex ffmpeg diskOk env fs isrc query

/-! ## Stream proxy (app/main.py, stream_audio) -/

/-- The upstream response headers that the proxy inspects, plus its status
code. -/
structure Upstream where
  status : Nat
  contentRange : Option Str
  contentLength : Option Str
  contentType : Option Str
  deriving DecidableEq, Repr

/-- Case-sensitive lookup in an association list of headers; the embedding
always inserts the canonical spellings the code uses. -/
def lookupHeader (k : Str) : List (Str × Str) → Option Str
  | [] => none
  | (k₂, v) :: rest => if k₂ = k then some v else lookupHeader k rest

/-- Embedding of the request-header construction of main.py lines 562-565:
the inbound Range value is forwarded verbatim when present and non-empty
(Python truthiness), otherwise no Range header is sent upstream. -/
def buildReqHeaders (inboundRange : Option Str) : List (Str × Str) :=
  match inboundRange with
  | some r => if r.isEmpty then [] else [("Range".data, r)]
  | none => []

/-- The fixed response headers of main.py lines 574-578. -/
def baseRespHeaders : List (Str × Str) :=
  [("Accept-Ranges".data, "bytes".data),
   ("Cache-Control".data, "public, max-age=3600".data),
   ("Access-Control-Allow-Origin".data, "*".data)]

/-- The upstream headers forwarded unmodified by main.py lines 581-583:
each of Content-Range, Content-Length and Content-Type that the upstream
supplied. -/
def forwardHeaders (u : Upstream) : List (Str × Str) :=
  (match u.contentRange with
   | some v => [("Content-Range".data, v)]
   | none => []) ++
  (match u.contentLength with
   | some v => [("Content-Length".data, v)]
   | none => []) ++
  (match u.contentType with
   | some v => [("Content-Type".data, v)]
   | none => [])

/-- The Hi-Res marker headers of main.py lines 585-587. -/
def hiResHeaders (hires : Bool) : List (Str × Str) :=
  if hires then
    [("X-Audio-Quality".data, "Hi-Res".data),
     ("X-Audio-Format".data, "FLAC".data)]
  else []

/-- A response as seen by the client: status code and headers. -/
structure ProxyResp where
  status : Nat
  headers : List (Str × Str)
  deriving DecidableEq, Repr

/-- Embedding of the StreamingResponse built on main.py lines 600-605: the
upstream status code is passed through, the header dict is sent, and
Starlette backfills a Content-Type from
media_type = upstream_resp.headers.get("Content-Type", "audio/flac") only
when the dict carries none. -/
def proxyStream (u : Upstream) (hires : Bool) : ProxyResp :=
  let hs := baseRespHeaders ++ forwardHeaders u ++ hiResHeaders hires
  let hs₂ :=
    match u.contentType with
    | some _ => hs
    | none => hs ++ [("Content-Type".data, "audio/flac".data)]
  { status := u.status, headers := hs₂ }

/-- Outcome of one upstream GET: response headers obtained, or an
exception before any header arrived. -/
inductive SendOutcome where
  | ok (u : Upstream)
  | exc
  deriving DecidableEq, Repr

/-- The environment of one request to the /api/stream/{isrc} endpoint:
whether a direct LINK:/ytm_ target was extracted, the outcome of the first
proxy attempt (main.py line 492), the cache state, the fetch_flac result,
and the outcome of the second proxy attempt (main.py line 571). -/
structure StreamEnv where
  directTarget : Option Str
  send1 : SendOutcome
  cached : Bool
  fetched : Option AudioData
  send2 : SendOutcome
  deriving DecidableEq, Repr

/-- What the endpoint returns to the client. -/
inductive StreamOutcome where
  | proxied (status : Nat)
  | cacheHit
  | direct (b : Bytes)
  | notFound
  | serverError
  deriving DecidableEq, Repr

/-- Embedding of sections 3 and 4 of stream_audio (main.py lines 526-628):
serve the FLAC cache entry when present, otherwise resolve via fetch_flac;
a miss raises 404; a URL result is proxied, and an exception of that proxy
attempt is re-raised (line 608), which the outer handler of lines 632-634
turns into an HTTP 500; a bytes result is served directly. -/
def nonProxyPath (env : StreamEnv) : StreamOutcome :=
  if env.cached then .cacheHit
  else
    match env.fetched with
    | none => .notFound
    | some (.url _) =>
        match env.send2 with
        | .ok u => .proxied u.status
        | .exc => .serverError
    | some (.flacBytes b) => .direct b

/-- Embedding of stream_audio (main.py lines 390-634): when a direct
target URL was extracted, proxy it; an exception of that first proxy
attempt is logged and falls through to the standard playback path
(lines 522-524). -/
def stream_audio (env : StreamEnv) : StreamOutcome :=
  match env.directTarget with
  | some _ =>
      match env.send1 with
      | .ok u => .proxied u.status
      | .exc => nonProxyPath env
  | none => nonProxyPath env

/-- A concrete resolver environment on which the Dab provider succeeds
with a stream URL: the first provider block finds a track for the query
hint and get_stream_url returns "http". -/
def c9Env : FetchEnv :=
  { dzFetch := none, dabSearchFound := true,
    dabStream := .ok ['h', 't', 't', 'p'], tidalSearch := false,
    tidalDownload := none, dzFetch2 := none, dzByIsrc := none,
    dzSearch := none, deezerDownload := none }

/-! ## Helper lemmas -/

theorem replaceChar_eq_self {a b : Char} {s : Str} (h : a ∉ s) :
    replaceChar a b s = s := by
  induction s with
  | nil => rfl
  | cons c t ih =>
      rw [List.mem_cons, not_or] at h
      have h1 : ¬ (c = a) := fun hc => h.1 hc.symm
      have h2 := ih h.2
      simp only [replaceChar, List.map_cons, if_neg h1] at h2 ⊢
      rw [h2]

theorem sanitize_eq_self {s : Str} (h1 : '/' ∉ s) (h2 : ':' ∉ s) :
    sanitize s = s := by
  unfold sanitize
  rw [replaceChar_eq_self h1, replaceChar_eq_self h2]

theorem colon_mem_of_isLink {s : Str} (h : isLinkPrefixed s = true) :
    ':' ∈ s := by
  rcases s with _ | ⟨a, _ | ⟨b, _ | ⟨c, _ | ⟨d, _ | ⟨e, t⟩⟩⟩⟩⟩ <;>
    simp [isLinkPrefixed] at h ⊢
  simp [h.2]

theorem append_cons_inj {c : Char} {a : Str} :
    ∀ {a' b b' : Str}, c ∉ a → c ∉ a' →
      a ++ c :: b = a' ++ c :: b' → a = a' ∧ b = b' := by
  induction a with
  | nil =>
      intro a' b b' _ h2 h
      cases a' with
      | nil => simpa using h
      | cons x t =>
          rw [List.nil_append, List.cons_append, List.cons.injEq] at h
          obtain ⟨rfl, -⟩ := h
          exact absurd (List.mem_cons_self _ _) h2
  | cons x t ih =>
      intro a' b b' h1 h2 h
      cases a' with
      | nil =>
          rw [List.nil_append, List.cons_append, List.cons.injEq] at h
          obtain ⟨rfl, -⟩ := h
          exact absurd (List.mem_cons_self _ _) h1
      | cons y u =>
          rw [List.cons_append, List.cons_append, List.cons.injEq] at h
          obtain ⟨rfl, htail⟩ := h
          have h1' : c ∉ t := fun hm => h1 (List.mem_cons_of_mem _ hm)
          have h2' : c ∉ u := fun hm => h2 (List.mem_cons_of_mem _ hm)
          obtain ⟨he, hb⟩ := ih h1' h2' htail
          exact ⟨by rw [he], hb⟩

theorem get_cache_path_short {md5hex : Str → Str} {i f : Str}
    (hlen : i.length ≤ 100) (hsl : '/' ∉ i) (hco : ':' ∉ i) :
    get_cache_path md5hex i f = i ++ '.' :: f := by
  have hL : isLinkPrefixed i = false := by
    cases hE : isLinkPrefixed i with
    | false => rfl
    | true => exact absurd (colon_mem_of_isLink hE) hco
  have hlen' : ¬ (100 < i.length) := by omega
  simp [get_cache_path, hL, hlen', sanitize_eq_self hsl hco]

theorem totalSize_evict_le (m : Nat) :
    ∀ l : List CEntry, totalSize (evict m l) ≤ m := by
  intro l
  induction l with
  | nil => simp [evict, totalSize]
  | cons e rest ih =>
      simp only [evict]
      by_cases h : m < totalSize (e :: rest)
      · rw [if_pos h]; exact ih
      · rw [if_neg h]; omega

theorem evict_eq_self {m : Nat} {l : List CEntry} (h : totalSize l ≤ m) :
    evict m l = l := by
  cases l with
  | nil => rfl
  | cons e rest =>
      simp only [evict]
      rw [if_neg (by omega)]

theorem mem_of_mem_evict {m : Nat} :
    ∀ {l : List CEntry} {x : CEntry}, x ∈ evict m l → x ∈ l := by
  intro l
  induction l with
  | nil => intro x hx; simp [evict] at hx
  | cons e rest ih =>
      intro x hx
      simp only [evict] at hx
      by_cases h : m < totalSize (e :: rest)
      · rw [if_pos h] at hx
        exact List.mem_cons_of_mem _ (ih hx)
      · rw [if_neg h] at hx
        exact hx

theorem evict_eq_drop (m : Nat) :
    ∀ l : List CEntry,
      ∃ k, evict m l = l.drop k ∧ ∀ j < k, m < totalSize (l.drop j) := by
  intro l
  induction l with
  | nil =>
      exact ⟨0, rfl, fun j hj => absurd hj (Nat.not_lt_zero j)⟩
  | cons e rest ih =>
      by_cases h : m < totalSize (e :: rest)
      · obtain ⟨k, hk, hj⟩ := ih
        refine ⟨k + 1, ?_, ?_⟩
        · simp only [evict]
          rw [if_pos h]
          simpa using hk
        · intro j hjk
          cases j with
          | zero => simpa using h
          | succ j' => simpa using hj j' (by omega)
      · refine ⟨0, ?_, fun j hj => absurd hj (Nat.not_lt_zero j)⟩
        simp only [evict]
        rw [if_neg h, List.drop_zero]

theorem totalSize_perm {l₁ l₂ : List CEntry} (h : l₁.Perm l₂) :
    totalSize l₁ = totalSize l₂ :=
  (h.map _).sum_eq

theorem tryChain_none_iff (y : Provider → Option Str) :
    ∀ l : List Provider, (tryChain y l).1 = none ↔ ∀ p ∈ l, y p = none := by
  intro l
  induction l with
  | nil => simp [tryChain]
  | cons p ps ih =>
      cases hy : y p with
      | some u => simp [tryChain, hy]
      | none => simp [tryChain, hy, ih]

theorem tryApis_spec (respond : Str → Option Str) :
    ∀ l : List Str,
      (tryApis respond l).1 = l.findSome? respond ∧
      (∃ k, (tryApis respond l).2.2 = l.take k) ∧
      ((tryApis respond l).1 = none → (tryApis respond l).2.2 = l) ∧
      (∀ u, (tryApis respond l).1 = some u →
        ∃ M, (tryApis respond l).2.1 = some M ∧ respond M = some u ∧
          M ∈ l) := by
  intro l
  induction l with
  | nil =>
      refine ⟨rfl, ⟨0, rfl⟩, fun _ => rfl, fun u hu => ?_⟩
      simp [tryApis] at hu
  | cons a rest ih =>
      cases ha : respond a with
      | some u =>
          refine ⟨?_, ⟨1, ?_⟩, ?_, ?_⟩
          · simp [tryApis, ha, List.findSome?_cons]
          · simp [tryApis, ha]
          · intro hn; simp [tryApis, ha] at hn
          · intro u' hu'
            simp [tryApis, ha] at hu'
            exact ⟨a, by simp [tryApis, ha], by rw [ha, hu'],
              List.mem_cons_self a rest⟩
      | none =>
          obtain ⟨ih1, ⟨k, ihk⟩, ihn, ihs⟩ := ih
          refine ⟨?_, ⟨k + 1, ?_⟩, ?_, ?_⟩
          · simp [tryApis, ha, List.findSome?_cons, ih1]
          · simp [tryApis, ha, ihk]
          · intro hn
            simp only [tryApis, ha] at hn ⊢
            rw [ihn hn]
          · intro u' hu'
            simp only [tryApis, ha] at hu'
            obtain ⟨M, hM1, hM2, hM3⟩ := ihs u' hu'
            exact ⟨M, by simp [tryApis, ha, hM1], hM2,
              List.mem_cons_of_mem _ hM3⟩

theorem apis_to_try_subset {w : Option Str} {apis : List Str} :
    ∀ x ∈ apis_to_try w apis, x ∈ apis := by
  intro x hx
  cases w with
  | none => exact hx
  | some v =>
      simp only [apis_to_try] at hx
      by_cases hv : v ∈ apis
      · rw [if_pos hv] at hx
        rcases List.mem_cons.mp hx with rfl | hx'
        · exact hv
        · exact List.erase_subset _ _ hx'
      · rw [if_neg hv] at hx
        exact hx

theorem apis_to_try_nodup {w : Option Str} {apis : List Str}
    (h : apis.Nodup) : (apis_to_try w apis).Nodup := by
  cases w with
  | none => exact h
  | some v =>
      simp only [apis_to_try]
      by_cases hv : v ∈ apis
      · rw [if_pos hv]
        exact List.nodup_cons.mpr ⟨h.not_mem_erase, h.erase v⟩
      · rw [if_neg hv]
        exact h

theorem apis_to_try_head {M : Str} {apis : List Str} (h : M ∈ apis) :
    (apis_to_try (some M) apis).head? = some M := by
  simp [apis_to_try, h]

/-! ## Claim theorems -/

/-- C1 counterexample: get_cache_path is not injective. The
direct-sanitization branch maps both "/" and ":" to "_", so the two
distinct ids "a/b" and "a:b" collide on the same cache file name
"a_b.mp3" for the same format. -/
theorem get_cache_path_collision :
    get_cache_path (fun s => s) ['a', '/', 'b'] ['m', 'p', '3'] =
      get_cache_path (fun s => s) ['a', ':', 'b'] ['m', 'p', '3'] ∧
    (['a', '/', 'b'] : Str) ≠ ['a', ':', 'b'] := by
  decide

/-- C1 amended: restricted to ids in the direct-sanitization branch
(length at most 100, hence also not LINK:-prefixed) over an alphabet
without the characters "/" and ":" that the sanitizer conflates and
without the separator ".", and to formats without the path separator "/",
get_cache_path is injective, and its output stays directly inside the
cache directory (the produced file name contains no path separator). -/
theorem get_cache_path_injective_on_safe (md5hex : Str → Str)
    (i₁ f₁ i₂ f₂ : Str)
    (h₁ : i₁.length ≤ 100 ∧ '/' ∉ i₁ ∧ ':' ∉ i₁ ∧ '.' ∉ i₁)
    (h₂ : i₂.length ≤ 100 ∧ '/' ∉ i₂ ∧ ':' ∉ i₂ ∧ '.' ∉ i₂)
    (hf₁ : '/' ∉ f₁) :
    '/' ∉ get_cache_path md5hex i₁ f₁ ∧
    (get_cache_path md5hex i₁ f₁ = get_cache_path md5hex i₂ f₂ →
      i₁ = i₂ ∧ f₁ = f₂) := by
  obtain ⟨h₁len, h₁sl, h₁co, h₁dot⟩ := h₁
  obtain ⟨h₂len, h₂sl, h₂co, h₂dot⟩ := h₂
  rw [get_cache_path_short h₁len h₁sl h₁co,
    get_cache_path_short h₂len h₂sl h₂co]
  constructor
  · intro hm
    rw [List.mem_append, List.mem_cons] at hm
    rcases hm with hm | hm | hm
    · exact h₁sl hm
    · exact absurd hm (by decide)
    · exact hf₁ hm
  · intro heq
    exact append_cons_inj h₁dot h₂dot heq

/-- C1 amended, witness: the amended statement at the concrete safe pair
("a", "mp3") and ("b", "mp3"). -/
theorem get_cache_path_injective_on_safe_witness :
    '/' ∉ get_cache_path (fun s => s) ['a'] ['m', 'p', '3'] ∧
    (get_cache_path (fun s => s) ['a'] ['m', 'p', '3'] =
        get_cache_path (fun s => s) ['b'] ['m', 'p', '3'] →
      (['a'] : Str) = ['b'] ∧ (['m', 'p', '3'] : Str) = ['m', 'p', '3']) :=
  get_cache_path_injective_on_safe (fun s => s) ['a'] ['m', 'p', '3']
    ['b'] ['m', 'p', '3'] (by decide) (by decide) (by decide)

/-- C2: after cleanup_cache the total size is at most the budget; every
surviving entry is within the TTL; when the within-TTL entries already fit
the budget, every within-TTL entry survives; and the sweep is exactly:
drop expired entries, then drop entries from the front of the
last-access-sorted survivor list, each drop happening only while the total
still exceeds the budget, the survivor list being sorted oldest first. -/
theorem cleanup_cache_spec (now ttl : Int) (m : Nat) (files : List CEntry) :
    totalSize (cleanup_cache now ttl m files) ≤ m ∧
    (∀ e ∈ cleanup_cache now ttl m files, expired now ttl e = false) ∧
    (totalSize (youngFiles now ttl files) ≤ m →
      ∀ e ∈ files, expired now ttl e = false →
        e ∈ cleanup_cache now ttl m files) ∧
    (∃ k, cleanup_cache now ttl m files = (sortedYoung now ttl files).drop k ∧
      ∀ j < k, m < totalSize ((sortedYoung now ttl files).drop j)) ∧
    List.Pairwise (fun a b => atimeLe a b = true)
      (sortedYoung now ttl files) := by
  refine ⟨totalSize_evict_le m _, ?_, ?_, evict_eq_drop m _, ?_⟩
  · intro e he
    have h1 : e ∈ sortedYoung now ttl files := mem_of_mem_evict he
    have h2 : e ∈ youngFiles now ttl files := List.mem_mergeSort.mp h1
    have h3 := List.mem_filter.mp h2
    simpa using h3.2
  · intro hle e hef hexp
    have hperm : (sortedYoung now ttl files).Perm (youngFiles now ttl files) :=
      List.mergeSort_perm _ _
    have hsize : totalSize (sortedYoung now ttl files) ≤ m := by
      rw [totalSize_perm hperm]; exact hle
    rw [cleanup_cache, evict_eq_self hsize]
    exact List.mem_mergeSort.mpr (List.mem_filter.mpr ⟨hef, by simp [hexp]⟩)
  · have htrans : ∀ a b c : CEntry, atimeLe a b = true → atimeLe b c = true →
        atimeLe a c = true := by
      intro a b c hab hbc
      simp only [atimeLe, decide_eq_true_eq] at hab hbc ⊢
      omega
    have htotal : ∀ a b : CEntry, (atimeLe a b || atimeLe b a) = true := by
      intro a b
      simp only [atimeLe, Bool.or_eq_true, decide_eq_true_eq]
      omega
    exact List.sorted_mergeSort htrans htotal (youngFiles now ttl files)

/-- C2 witness: a two-entry directory with one expired and one fresh
entry, fitting the budget after the TTL phase; the fresh entry survives,
and the total size ends within the budget. -/
theorem cleanup_cache_spec_witness :
    totalSize (cleanup_cache 1000 200 5
        [⟨['a'], 2, 900⟩, ⟨['b'], 3, 100⟩]) ≤ 5 ∧
    (⟨['a'], 2, 900⟩ : CEntry) ∈ cleanup_cache 1000 200 5
        [⟨['a'], 2, 900⟩, ⟨['b'], 3, 100⟩] :=
  ⟨(cleanup_cache_spec 1000 200 5 [⟨['a'], 2, 900⟩, ⟨['b'], 3, 100⟩]).1,
   (cleanup_cache_spec 1000 200 5 [⟨['a'], 2, 900⟩, ⟨['b'], 3, 100⟩]).2.2.1
     (by decide) ⟨['a'], 2, 900⟩ (by decide) (by decide)⟩

/-- C3: a successful cache_file for (isrc, format) immediately followed by
get_cached_file for the same pair returns exactly the bytes written. -/
theorem cache_write_read_roundtrip (md5hex : Str → Str) (diskOk : Bool)
    (fs : FS) (isrc format : Str) (data : Bytes)
    (h : (cache_file md5hex diskOk fs isrc data format).2 = true) :
    get_cached_file md5hex (cache_file md5hex diskOk fs isrc data format).1
      isrc format = some data := by
  cases diskOk with
  | false => simp [cache_file] at h
  | true => simp [cache_file, get_cached_file]

/-- C3 witness: the round trip at a concrete id, format and byte string on
the empty cache. -/
theorem cache_write_read_roundtrip_witness :
    get_cached_file (fun s => s)
      (cache_file (fun s => s) true FS.empty ['a'] [1, 2, 3]
        ['m', 'p', '3']).1 ['a'] ['m', 'p', '3'] = some [1, 2, 3] :=
  cache_write_read_roundtrip (fun s => s) true FS.empty ['a'] ['m', 'p', '3']
    [1, 2, 3] rfl

/-- C10: is_cached is true exactly when the cache file for the derived key
exists with strictly positive size; in particular a zero-byte cached file
is reported as not cached. -/
theorem is_cached_iff_pos_size (md5hex : Str → Str) (fs : FS)
    (isrc format : Str) :
    (is_cached md5hex fs isrc format = true ↔
      ∃ d, fs (get_cache_path md5hex isrc format) = some d ∧ 0 < d.length) ∧
    (fs (get_cache_path md5hex isrc format) = some [] →
      is_cached md5hex fs isrc format = false) := by
  constructor
  · cases hE : fs (get_cache_path md5hex isrc format) with
    | none => simp [is_cached, hE]
    | some d => simp [is_cached, hE]
  · intro hE
    simp [is_cached, hE]

/-- C10 witness: a cache holding a zero-byte file under the derived key
reports the entry as not cached. -/
theorem is_cached_iff_pos_size_witness :
    is_cached (fun s => s)
      (fun p => if p = get_cache_path (fun s => s) ['a'] ['m', 'p', '3']
                then some [] else none) ['a'] ['m', 'p', '3'] = false :=
  (is_cached_iff_pos_size (fun s => s) _ ['a'] ['m', 'p', '3']).2 (by simp)

/-- C4: fetch_flac is exactly the once-per-candidate traversal of the
fixed priority chain Dab, then Tidal, then Deezer (Tidal being skipped
only for ids still carrying the dz_ marker after preprocessing, for which
no real ISRC exists); an exception inside a provider block behaves
exactly like a miss and advances to the next provider; and None is
returned precisely when every provider of the applicable chain yielded no
stream. -/
theorem fetch_flac_priority_fallback (env : FetchEnv) (isrc query : Str) :
    fetch_flac env isrc query =
      tryChain (provYield env isrc query) (provChain env isrc query) ∧
    fetch_flac (softenEnv env) isrc query = fetch_flac env isrc query ∧
    ((fetch_flac env isrc query).1 = none ↔
      ∀ p ∈ provChain env isrc query, provYield env isrc query p = none) := by
  have h1 : fetch_flac env isrc query =
      tryChain (provYield env isrc query) (provChain env isrc query) := by
    unfold fetch_flac provChain
    cases hdz : isDzPrefixed (preprocess env isrc query).isrc <;>
      cases hd : dabYield env (preprocess env isrc query) <;>
        cases ht : tidalYield env <;>
          cases hz : deezerYield env (preprocess env isrc query) <;>
            simp [tryChain, provYield, hdz, hd, ht, hz]
  have hdab : dabYield (softenEnv env) (preprocess env isrc query) =
      dabYield env (preprocess env isrc query) := by
    unfold dabYield
    cases hs : env.dabStream <;>
      simp [softenEnv, softenAttempt, hs, dabHasId]
  have h2 : fetch_flac (softenEnv env) isrc query =
      fetch_flac env isrc query := by
    unfold fetch_flac
    simp only [show preprocess (softenEnv env) isrc query =
        preprocess env isrc query from rfl, hdab,
      show tidalYield (softenEnv env) = tidalYield env from rfl,
      show deezerYield (softenEnv env) (preprocess env isrc query) =
        deezerYield env (preprocess env isrc query) from rfl]
  refine ⟨h1, h2, ?_⟩
  rw [h1]
  exact tryChain_none_iff _ _

/-- C4 witness: the traversal equality evaluated on a concrete
environment in which Dab misses, Tidal misses and Deezer yields a URL. -/
theorem fetch_flac_priority_fallback_witness :
    fetch_flac
        { dzFetch := none, dabSearchFound := false, dabStream := .exc,
          tidalSearch := true, tidalDownload := none, dzFetch2 := none,
          dzByIsrc := some ⟨false, none, []⟩, dzSearch := none,
          deezerDownload := some ['d'] } ['a'] [] =
      tryChain
        (provYield
          { dzFetch := none, dabSearchFound := false, dabStream := .exc,
            tidalSearch := true, tidalDownload := none, dzFetch2 := none,
            dzByIsrc := some ⟨false, none, []⟩, dzSearch := none,
            deezerDownload := some ['d'] } ['a'] [])
        (provChain
          { dzFetch := none, dabSearchFound := false, dabStream := .exc,
            tidalSearch := true, tidalDownload := none, dzFetch2 := none,
            dzByIsrc := some ⟨false, none, []⟩, dzSearch := none,
            deezerDownload := some ['d'] } ['a'] []) :=
  (fetch_flac_priority_fallback _ ['a'] []).1

/-- C5: when the resolved source bytes begin with the FLAC signature
b"fLaC" and the requested format is the FLAC profile whose output bit
depth matches the source, the transcode stage of get_download_audio makes
zero encoder invocations and passes the source bytes through unchanged;
the subsequent tagging stage receives exactly those bytes under the flac
tag format. -/
theorem flac_bypass_no_encoder (ffmpeg : Bytes → Str → Option Bytes)
    (embed : Bytes → Str → Bytes) (d : Bytes) (format : Str)
    (srcDepth : Nat) (hmagic : d.take 4 = flacMagic) (hlen : 4 ≤ d.length)
    (hdepth : profileBitDepth format = some srcDepth) :
    transcodeStage ffmpeg d format = (some d, 0) ∧
    downloadTranscode ffmpeg embed d format = (some (embed d flacFmt), 0) := by
  have htgt : is_flac_target format = true := by
    unfold profileBitDepth at hdepth
    unfold is_flac_target
    by_cases h1 : format = flacFmt
    · simp [h1]
    · rw [if_neg h1] at hdepth
      by_cases h2 : format = flac24Fmt
      · simp [h2]
      · rw [if_neg h2] at hdepth
        exact absurd hdepth (by simp)
  have hsrc : is_flac_source d = true := by
    simp [is_flac_source, hmagic, hlen]
  have hne : d.isEmpty = false := by
    cases d with
    | nil => simp at hlen
    | cons x t => rfl
  have hstage : transcodeStage ffmpeg d format = (some d, 0) := by
    simp [transcodeStage, hsrc, htgt]
  refine ⟨hstage, ?_⟩
  simp [downloadTranscode, hstage, hsrc, htgt, hne]

/-- C5 witness: the bypass on the four magic bytes themselves with target
format flac and matching 16-bit depth; the encoder oracle is never
consulted. -/
theorem flac_bypass_no_encoder_witness :
    transcodeStage (fun _ _ => none) [0x66, 0x4C, 0x61, 0x43] flacFmt =
      (some [0x66, 0x4C, 0x61, 0x43], 0) ∧
    downloadTranscode (fun _ _ => none) (fun b _ => b)
        [0x66, 0x4C, 0x61, 0x43] flacFmt =
      (some [0x66, 0x4C, 0x61, 0x43], 0) :=
  flac_bypass_no_encoder (fun _ _ => none) (fun b _ => b)
    [0x66, 0x4C, 0x61, 0x43] flacFmt 16 (by decide) (by decide) (by decide)

/-- C6: get_tidal_download_url iterates over the current endpoint list
with the last working endpoint (when set and present) moved to the front
and the rest kept in list order; each endpoint is attempted at most once
per call; iteration stops at the first endpoint yielding a URL; and after
a success via endpoint M the stored working endpoint is M, so the next
call attempts M first. -/
theorem tidal_mirror_selection (respond : Str → Option Str)
    (apis : List Str) (working : Option Str) (hnd : apis.Nodup) :
    (∀ w, working = some w → w ∈ apis →
      apis_to_try working apis = w :: apis.erase w) ∧
    (∀ w, working = some w → w ∉ apis →
      apis_to_try working apis = apis) ∧
    (working = none → apis_to_try working apis = apis) ∧
    (get_tidal_download_url respond apis working).1 =
      (apis_to_try working apis).findSome? respond ∧
    (∃ k, (get_tidal_download_url respond apis working).2.2 =
      (apis_to_try working apis).take k) ∧
    ((get_tidal_download_url respond apis working).1 = none →
      (get_tidal_download_url respond apis working).2.2 =
        apis_to_try working apis) ∧
    (get_tidal_download_url respond apis working).2.2.Nodup ∧
    (∀ u, (get_tidal_download_url respond apis working).1 = some u →
      ∃ M, (get_tidal_download_url respond apis working).2.1 = some M ∧
        respond M = some u ∧
        (apis_to_try ((get_tidal_download_url respond apis working).2.1)
          apis).head? = some M) := by
  obtain ⟨hfs, ⟨k, hk⟩, hnone, hsucc⟩ :=
    tryApis_spec respond (apis_to_try working apis)
  refine ⟨?_, ?_, ?_, hfs, ⟨k, hk⟩, hnone, ?_, ?_⟩
  · intro w hw hmem
    subst hw
    simp [apis_to_try, hmem]
  · intro w hw hmem
    subst hw
    simp [apis_to_try, hmem]
  · intro hw
    subst hw
    rfl
  · show (tryApis respond (apis_to_try working apis)).2.2.Nodup
    rw [hk]
    exact (List.take_sublist _ _).nodup (apis_to_try_nodup hnd)
  · intro u hu
    obtain ⟨M, hM1, hM2, hM3⟩ := hsucc u hu
    refine ⟨M, ?_, hM2, ?_⟩
    · show (match (tryApis respond (apis_to_try working apis)).2.1 with
        | some a => some a | none => working) = some M
      rw [hM1]
    · have : (get_tidal_download_url respond apis working).2.1 = some M := by
        show (match (tryApis respond (apis_to_try working apis)).2.1 with
          | some a => some a | none => working) = some M
        rw [hM1]
      rw [this]
      exact apis_to_try_head (apis_to_try_subset M hM3)

/-- C6 witness: two endpoints, no prior working endpoint, the second one
responds; after the call the working endpoint is the responder and heads
the next candidate order. -/
theorem tidal_mirror_selection_witness :
    ∃ M, (get_tidal_download_url
        (fun s => if s = ['b'] then some ['u'] else none)
        [['a'], ['b']] none).2.1 = some M ∧
      (fun s : Str => if s = ['b'] then some ['u'] else none) M =
        some ['u'] ∧
      (apis_to_try ((get_tidal_download_url
          (fun s => if s = ['b'] then some ['u'] else none)
          [['a'], ['b']] none).2.1) [['a'], ['b']]).head? = some M :=
  (tidal_mirror_selection (fun s => if s = ['b'] then some ['u'] else none)
    [['a'], ['b']] none (by decide)).2.2.2.2.2.2.2 ['u'] (by decide)

/-- C7: the stream proxy forwards a present non-empty inbound Range value
verbatim to the upstream request, returns the upstream status code
unchanged, and for each of Content-Range, Content-Length and Content-Type
that the upstream supplied, the response carries the identical value. -/
theorem stream_proxy_forwarding (inboundRange : Option Str) (u : Upstream)
    (hires : Bool) :
    (∀ r, inboundRange = some r → r.isEmpty = false →
      buildReqHeaders inboundRange = [("Range".data, r)]) ∧
    (proxyStream u hires).status = u.status ∧
    (∀ v, u.contentRange = some v →
      lookupHeader ("Content-Range".data) (proxyStream u hires).headers =
        some v) ∧
    (∀ v, u.contentLength = some v →
      lookupHeader ("Content-Length".data) (proxyStream u hires).headers =
        some v) ∧
    (∀ v, u.contentType = some v →
      lookupHeader ("Content-Type".data) (proxyStream u hires).headers =
        some v) := by
  obtain ⟨st, cr, cl, ct⟩ := u
  refine ⟨?_, rfl, ?_, ?_, ?_⟩
  · intro r hr hne
    subst hr
    simp [buildReqHeaders, hne]
  · intro v hv
    simp only at hv
    subst hv
    rcases cl with _ | vl <;> rcases ct with _ | vt <;> cases hires <;>
      simp +decide [proxyStream, baseRespHeaders, forwardHeaders,
        hiResHeaders, lookupHeader]
  · intro v hv
    simp only at hv
    subst hv
    rcases cr with _ | vr <;> rcases ct with _ | vt <;> cases hires <;>
      simp +decide [proxyStream, baseRespHeaders, forwardHeaders,
        hiResHeaders, lookupHeader]
  · intro v hv
    simp only at hv
    subst hv
    rcases cr with _ | vr <;> rcases cl with _ | vl <;> cases hires <;>
      simp +decide [proxyStream, baseRespHeaders, forwardHeaders,
        hiResHeaders, lookupHeader]

/-- C7 witness: the claimed Range request of the specification, a 206
upstream with Content-Range bytes 100-199/1000, forwarded identically. -/
theorem stream_proxy_forwarding_witness :
    buildReqHeaders (some ("bytes=100-199".data)) =
      [("Range".data, "bytes=100-199".data)] ∧
    (proxyStream
        ⟨206, some ("bytes 100-199/1000".data), some ("100".data),
          some ("audio/flac".data)⟩ false).status = 206 ∧
    lookupHeader ("Content-Range".data)
        (proxyStream
          ⟨206, some ("bytes 100-199/1000".data), some ("100".data),
            some ("audio/flac".data)⟩ false).headers =
      some ("bytes 100-199/1000".data) :=
  ⟨(stream_proxy_forwarding (some ("bytes=100-199".data))
      ⟨206, some ("bytes 100-199/1000".data), some ("100".data),
        some ("audio/flac".data)⟩ false).1 ("bytes=100-199".data) rfl
      (by decide),
   (stream_proxy_forwarding (some ("bytes=100-199".data))
      ⟨206, some ("bytes 100-199/1000".data), some ("100".data),
        some ("audio/flac".data)⟩ false).2.1,
   (stream_proxy_forwarding (some ("bytes=100-199".data))
      ⟨206, some ("bytes 100-199/1000".data), some ("100".data),
        some ("audio/flac".data)⟩ false).2.2.1 ("bytes 100-199/1000".data)
     rfl⟩

/-- C8 counterexample: not every pre-header proxying failure falls back.
In the post-resolve proxy attempt (main.py line 571) a failure before
upstream headers arrive is re-raised (line 608) and surfaces as an HTTP
500 server error to the client: with no direct target, an empty cache, a
resolved stream URL and a failing second proxy attempt, the endpoint
returns the surfaced error rather than any fallback response. -/
theorem stream_audio_proxy2_surfaces_error :
    stream_audio
        { directTarget := none, send1 := .exc, cached := false,
          fetched := some (.url ['u']), send2 := .exc } =
      StreamOutcome.serverError := by
  rfl

/-- C8 amended: only the first proxying attempt (the directly extracted
LINK:/ytm_ target, main.py line 492) falls back to the non-proxy path
(cache plus fetch_flac) when it fails before upstream headers are
obtained; the post-resolve proxy attempt re-raises such failures, which
surface to the client as an HTTP 500. -/
theorem stream_audio_proxy_failure_paths (env : StreamEnv) :
    (env.send1 = .exc → stream_audio env = nonProxyPath env) ∧
    (∀ u, env.cached = false → env.fetched = some (.url u) →
      env.send2 = .exc →
      stream_audio { env with directTarget := none } =
        StreamOutcome.serverError) := by
  constructor
  · intro h1
    unfold stream_audio
    cases env.directTarget with
    | none => rfl
    | some t => rw [h1]
  · intro u hc hf h2
    show nonProxyPath { env with directTarget := none } = _
    unfold nonProxyPath
    simp [hc, hf, h2]

/-- C8 amended, witness: a request with a direct target whose first proxy
attempt fails falls back to the non-proxy path; the same cache-miss
request resolving to a URL whose proxy attempt fails yields the 500. -/
theorem stream_audio_proxy_failure_paths_witness :
    stream_audio
        { directTarget := some ['t'], send1 := .exc, cached := false,
          fetched := some (.url ['u']), send2 := .exc } =
      nonProxyPath
        { directTarget := some ['t'], send1 := .exc, cached := false,
          fetched := some (.url ['u']), send2 := .exc } ∧
    stream_audio
        { directTarget := none, send1 := .exc, cached := false,
          fetched := some (.url ['u']), send2 := .exc } =
      StreamOutcome.serverError :=
  ⟨(stream_audio_proxy_failure_paths
      { directTarget := some ['t'], send1 := .exc, cached := false,
        fetched := some (.url ['u']), send2 := .exc }).1 rfl,
   (stream_audio_proxy_failure_paths
      { directTarget := some ['t'], send1 := .exc, cached := false,
        fetched := some (.url ['u']), send2 := .exc }).2 ['u'] rfl rfl rfl⟩

/-- C9: evaluation at the failing input. On an empty cache the resolver
succeeds (the Dab provider yields the stream URL "http", and every
successful fetch_flac path returns such a URL string, never bytes), yet
get_audio_stream returns None and leaves the cache empty even with a
working encoder oracle: the URL string bound to flac_data makes
transcode_to_mp3 fail, so the transcoded, cached, non-empty MP3 required
by the claim never appears. -/
theorem get_audio_stream_url_type_failure :
    (fetch_flac c9Env ['I', 'S', 'R', 'C', '1', '2', '3']
        ['A', 'r', 't', 'i', 's', 't']).1 = some ['h', 't', 't', 'p'] ∧
    get_audio_stream (fun s => s) (fun b => some (0 :: b)) true c9Env
        FS.empty ['I', 'S', 'R', 'C', '1', '2', '3']
        ['A', 'r', 't', 'i', 's', 't'] = (none, FS.empty) ∧
    is_cached (fun s => s) FS.empty ['I', 'S', 'R', 'C', '1', '2', '3']
        mp3Fmt = false := by
  refine ⟨?_, ?_, rfl⟩ <;> rfl

end Freedify
